import Mathlib

/-!
Shallow embedding of `src/pkgcheck/checks/git.py` (`GitCommitsCheck`) and
proofs about it.  Pure data flow is translated directly; the external
collaborators (pkgcore repositories, the git subprocess, the added-package
index) appear as explicit function-valued inputs, and exceptions that the
Python code can raise are modelled with `Except`.
-/

namespace Pkgcheck

/-- One commit's effect on one package, as produced by the external git
commit feed: category, package name, version, commit hash, and a one-letter
status string (`"A"` added, `"M"` modified, `"D"` deleted).  Mirrors the
attributes of the records that `GitCommitsCheck.feed` reads
(`pkg.category`, `pkg.package`, `pkg.unversioned_atom`,
`pkg.versioned_atom`, `pkg.commit`, `pkg.status`). -/
structure GitPkg where
  category : String
  package : String
  version : String
  commit : String
  status : String
deriving DecidableEq

/-- A resolved package object as returned by `repo.match`: the fields of it
that `git.py` reads — its KEYWORDS markers (`pkg.keywords`, in repository
order), its maintainers (`pkg.maintainers`), and the lines of its ebuild
text (`pkg.ebuild.text_fileobj()`; `next` on it yields the head, raising
`StopIteration` when the list is empty). -/
structure Pkg where
  category : String
  package : String
  version : String
  keywords : List String
  maintainers : List String
  ebuildLines : List String
deriving DecidableEq

/-- A record of the added-package index (`GitAddedRepo`); the check reads
only its `.date` field. -/
structure AddedPkg where
  date : String
deriving DecidableEq

/-- The five typed findings `GitCommitsCheck` can emit.  Versioned results
carry category/package/version of the resolved package, package-scoped
results carry category/package.  The dropped-keyword findings carry the set
of dropped markers and the triggering commit hash. -/
inductive Finding where
  | OutdatedCopyright (category package version : String) (year : String) (line : String)
  | DirectStableKeywords (category package version : String) (keywords : List String)
  | DroppedStableKeywords (category package : String) (keywords : Finset String) (commit : String)
  | DroppedUnstableKeywords (category package : String) (keywords : Finset String) (commit : String)
  | DirectNoMaintainer (category package : String)
deriving DecidableEq

/-- Python slice `x[1:]`. -/
def pyTail (x : String) : String := String.mk (x.data.drop 1)

/-- `dropped_keywords = old_keywords - new_keywords` (git.py line 141). -/
def dropped_keywords (old_keywords new_keywords : Finset String) : Finset String :=
  old_keywords \ new_keywords

/-- `dropped_stable_keywords = dropped_keywords & self.valid_arches`
(git.py line 142). -/
def dropped_stable_keywords (old_keywords new_keywords valid_arches : Finset String) :
    Finset String :=
  dropped_keywords old_keywords new_keywords ∩ valid_arches

/-- `{x for x in dropped_keywords if x[0] == '~' and x[1:] in self.valid_arches}`
(git.py lines 143-144).  `x[0] == '~'` is modelled as "the first character
is `'~'`" (Python keyword tokens are nonempty, so the `IndexError` that
`x[0]` would raise on an empty string cannot occur). -/
def dropped_unstable_keywords (old_keywords new_keywords valid_arches : Finset String) :
    Finset String :=
  (dropped_keywords old_keywords new_keywords).filter
    (fun x => x.data.head? = some '~' ∧ pyTail x ∈ valid_arches)

/-- Boolean test that list `l` begins with list `p`. -/
def listStartsWith : List Char → List Char → Bool
  | _, [] => true
  | [], _ :: _ => false
  | a :: as, b :: bs => a == b && listStartsWith as bs

/-- Read four decimal digits (`\d\d\d\d`) from the front of a character
list, returning them and the remainder. -/
def fourDigits : List Char → Option (List Char × List Char)
  | a :: b :: c :: d :: rest =>
    if a.isDigit && b.isDigit && c.isDigit && d.isDigit then some ([a, b, c, d], rest)
    else none
  | _ => none

/-- `.+` at the end of the pattern: at least one character other than a
newline must follow (`.` does not match `'\n'` and `re.match` does not
require the match to span the whole line). -/
def dotPlus : List Char → Bool
  | c :: _ => c != '\n'
  | [] => false

/-- Group 1 of `re.match` with the pattern
`^# Copyright (\d\d\d\d(-\d\d\d\d)?) .+` (git.py lines 17-19), or `none`
when the line does not match.  After the first four digits, if the next
character is `'-'` the optional group must complete (the fallback without it
would require a space where the `'-'` stands, so the regex engine's
backtracking cannot succeed either); otherwise a space and at least one
further character are required. -/
def copyrightGroup1 (line : String) : Option String :=
  let cs := line.data
  if listStartsWith cs ("# Copyright ").data then
    match fourDigits (cs.drop 12) with
    | some (y1, '-' :: rest2) =>
      match fourDigits rest2 with
      | some (y2, ' ' :: rest4) =>
        if dotPlus rest4 then some (String.mk (y1 ++ '-' :: y2)) else none
      | _ => none
    | some (y1, ' ' :: r) => if dotPlus r then some (String.mk y1) else none
    | _ => none
  else none

/-- The characters after the last `'-'` of a character list (accumulating
the current segment in `acc`). -/
def afterLastDash : List Char → List Char → List Char
  | [], acc => acc.reverse
  | '-' :: rest, _ => afterLastDash rest []
  | c :: rest, acc => afterLastDash rest (c :: acc)

/-- `copyright.group(1).split('-')[-1]` (git.py line 171): the segment after
the last `'-'`, i.e. the later year of a `YYYY-YYYY` range, or the whole
string when it contains no `'-'`. -/
def lastYear (g : String) : String := String.mk (afterLastDash g.data [])

/-- Python `int(...)` on a string of decimal digits (the only strings the
check applies it to: group 1 of the copyright pattern is all digits and
dashes, and the segment after the last dash is all digits). -/
def pyInt (s : String) : Nat :=
  s.data.foldl (fun n c => 10 * n + (c.toNat - 48)) 0

/-- Python `line.strip('\n')`: remove leading and trailing newline
characters. -/
def stripNL (s : String) : String :=
  String.mk (((s.data.dropWhile (· == '\n')).reverse.dropWhile (· == '\n')).reverse)

/-- `x[0] not in '~-'` (git.py line 178): the first character of the marker
is neither `'~'` nor `'-'`.  Keyword tokens are nonempty, so the
`IndexError` that `x[0]` would raise on the empty string cannot occur; the
empty string is conventionally counted as prefix-free here. -/
def isStableKeyword (x : String) : Bool :=
  match x.data.head? with
  | some c => !(c == '~' || c == '-')
  | none => true

/-- Code-point lexicographic `≤` on character lists, the order Python uses
to compare strings. -/
def charsLe : List Char → List Char → Bool
  | [], _ => true
  | _ :: _, [] => false
  | a :: as, b :: bs => a.toNat < b.toNat || (a == b && charsLe as bs)

/-- Python string comparison `a <= b`: code-point lexicographic order. -/
def pyStrLe (a b : String) : Bool := charsLe a.data b.data

/-- Insert a string into an already sorted list, keeping it sorted. -/
def orderedInsertStr (a : String) : List String → List String
  | [] => [a]
  | b :: l => if pyStrLe a b then a :: b :: l else b :: orderedInsertStr a l

/-- Python `sorted` on strings: ascending code-point lexicographic order,
as an insertion sort. -/
def sortStrings (l : List String) : List String := l.foldr orderedInsertStr []

/-- The environment a `GitCommitsCheck` instance closes over:
`self.today.year`, `self.valid_arches` (the target repository's
`known_arches`), the live repository's `match` on a versioned atom and on an
unversioned atom, and `self.added_repo.match` on an unversioned atom. -/
structure CheckCtx where
  todayYear : Nat
  valid_arches : Finset String
  repoMatchVersioned : String → String → String → List Pkg
  repoMatchUnversioned : String → String → List Pkg
  addedRepoMatch : String → String → List AddedPkg

/-- `set(chain.from_iterable(pkg.keywords for pkg in matches))`
(git.py lines 136-139): the union of the keyword sets of a list of package
versions. -/
def unionKeywords (pkgs : List Pkg) : Finset String :=
  pkgs.foldr (fun p acc => p.keywords.toFinset ∪ acc) ∅

/-- The outcome of `git archive {commit}~1 {paths}` run as a subprocess
(git.py lines 112, 125-127): the exit code, the stderr text, and — when the
bytes written to stdout form a readable tar stream — the package versions
that `UnconfiguredTree(repo_dir).match(pkg.unversioned_atom)` finds in the
extracted snapshot.  `stdoutTar = none` models a stream `tarfile.open`
cannot read: a `git archive` that fails (for instance on a nonexistent
commit) writes nothing to stdout, and `tarfile.open(mode='r|')` on the
empty stream raises `tarfile.ReadError` (git.py lines 128-129). -/
structure ArchiveResult where
  exitCode : Nat
  stdoutTar : Option (List Pkg)
  stderr : String

/-- `GitCommitsCheck.removal_checks` (git.py lines 104-149), with the git
subprocess abstracted as `archive`.  Returns `Except.error` when an
exception escapes (the `tarfile.ReadError` raised on an unreadable stdout
stream), and otherwise the logged warnings together with the findings the
generator yields.  The temporary-directory scaffolding (lines 114-123) has
no observable effect beyond enabling the snapshot query and is not
modelled.  `if old_files.poll():` (line 130) is the truthiness of the exit
code of the terminated subprocess, modelled as `exitCode ≠ 0`. -/
def removal_checks (ctx : CheckCtx) (pkgset : List GitPkg) (archive : GitPkg → ArchiveResult) :
    Except String (List String × List Finding) :=
  match pkgset.filter (fun p => p.status == "D") with
  | [] => Except.ok ([], [])
  | pkg :: _ =>
    let commit := pkg.commit
    let ar := archive pkg
    match ar.stdoutTar with
    | none => Except.error "tarfile.ReadError: empty file"
    | some oldMatches =>
      if ar.exitCode ≠ 0 then
        Except.ok (["skipping git removal checks: " ++ ar.stderr], [])
      else
        let old_keywords := unionKeywords oldMatches
        let new_keywords := unionKeywords (ctx.repoMatchUnversioned pkg.category pkg.package)
        let dsk := dropped_stable_keywords old_keywords new_keywords ctx.valid_arches
        let duk := dropped_unstable_keywords old_keywords new_keywords ctx.valid_arches
        Except.ok ([],
          (if dsk ≠ ∅ then [Finding.DroppedStableKeywords pkg.category pkg.package dsk commit]
           else [])
          ++ (if duk ≠ ∅ then [Finding.DroppedUnstableKeywords pkg.category pkg.package duk commit]
              else []))

/-- The copyright check of `GitCommitsCheck.feed` (git.py lines 169-173)
for one resolved package and the first line of its ebuild. -/
def copyright_findings (todayYear : Nat) (pkg : Pkg) (line : String) : List Finding :=
  match copyrightGroup1 line with
  | some g =>
    let year := lastYear g
    if pyInt year < todayYear then
      [Finding.OutdatedCopyright pkg.category pkg.package pkg.version year (stripNL line)]
    else []
  | none => []

/-- `all(x.date == added_pkgs[0].date for x in added_pkgs)` (git.py
line 184).  The generator is lazy: on an empty list `all` returns `True`
and the `added_pkgs[0]` subscript inside the generator body is never
evaluated, so no `IndexError` is raised. -/
def newly_added (added_pkgs : List AddedPkg) : Bool :=
  match added_pkgs with
  | [] => true
  | first :: _ => added_pkgs.all (fun x => x.date == first.date)

/-- `stable_keywords = sorted(x for x in pkg.keywords if x[0] not in '~-')`
(git.py line 178). -/
def stable_keywords (pkg : Pkg) : List String :=
  sortStrings (pkg.keywords.filter isStableKeyword)

/-- The `git_pkg.status == 'A'` branch of `GitCommitsCheck.feed`
(git.py lines 176-188): the direct-stable-keywords check and the
no-maintainer check.  `added_pkgs` is
`self.added_repo.match(git_pkg.unversioned_atom)`. -/
def direct_findings (ctx : CheckCtx) (git_pkg : GitPkg) (pkg : Pkg) : List Finding :=
  if git_pkg.status == "A" then
    (if stable_keywords pkg ≠ [] then
      [Finding.DirectStableKeywords pkg.category pkg.package pkg.version (stable_keywords pkg)]
     else [])
    ++
    (if newly_added (ctx.addedRepoMatch git_pkg.category git_pkg.package)
        && pkg.maintainers.isEmpty then
       [Finding.DirectNoMaintainer pkg.category pkg.package]
     else [])
  else []

/-- One iteration of the `for git_pkg in pkgset` loop of
`GitCommitsCheck.feed` (git.py lines 156-188).  `none` models the two
`return` statements that abort the whole generator: the `IndexError` branch
when `self.repo.match(git_pkg.versioned_atom)` is empty (lines 157-161) and
the `StopIteration` branch when the ebuild text has no first line
(lines 164-168). -/
def feed_record (ctx : CheckCtx) (git_pkg : GitPkg) : Option (List Finding) :=
  match ctx.repoMatchVersioned git_pkg.category git_pkg.package git_pkg.version with
  | [] => none
  | pkg :: _ =>
    match pkg.ebuildLines with
    | [] => none
    | line :: _ =>
      some (copyright_findings ctx.todayYear pkg line ++ direct_findings ctx git_pkg pkg)

/-- The `for git_pkg in pkgset` loop of `feed`: findings accumulate in
order, and a `return` (`feed_record = none`) discards the rest of the
batch. -/
def feed_loop (ctx : CheckCtx) : List GitPkg → List Finding
  | [] => []
  | g :: rest =>
    match feed_record ctx g with
    | none => []
    | some fs => fs ++ feed_loop ctx rest

/-- `GitCommitsCheck.feed` (git.py lines 152-188): first
`yield from self.removal_checks(pkgset)`, then the per-record loop.  An
exception raised inside `removal_checks` propagates to the consumer before
any loop finding is yielded. -/
def feed (ctx : CheckCtx) (pkgset : List GitPkg) (archive : GitPkg → ArchiveResult) :
    Except String (List String × List Finding) :=
  match removal_checks ctx pkgset archive with
  | Except.error e => Except.error e
  | Except.ok (warnings, fs) => Except.ok (warnings, fs ++ feed_loop ctx pkgset)

/-- Membership in the stable-dropped set, unfolded. -/
theorem mem_dropped_stable (old_keywords new_keywords valid_arches : Finset String)
    (m : String) :
    m ∈ dropped_stable_keywords old_keywords new_keywords valid_arches ↔
      m ∈ old_keywords \ new_keywords ∧ m ∈ valid_arches := by
  unfold dropped_stable_keywords dropped_keywords
  exact Finset.mem_inter

/-- Membership in the unstable-dropped set, unfolded. -/
theorem mem_dropped_unstable (old_keywords new_keywords valid_arches : Finset String)
    (m : String) :
    m ∈ dropped_unstable_keywords old_keywords new_keywords valid_arches ↔
      m ∈ old_keywords \ new_keywords ∧ m.data.head? = some '~' ∧ pyTail m ∈ valid_arches := by
  unfold dropped_unstable_keywords dropped_keywords
  rw [Finset.mem_filter]

/-- Claim C6 (confirmed): the keyword diff computes exactly
`dropped = old − new`, `stableDropped = dropped ∩ validPlatforms` by exact
match, `unstableDropped = the markers of dropped that start with '~' and
whose tail is a valid platform`, and every other dropped marker appears in
neither returned set. -/
theorem C6_keyword_diff_exact (old_keywords new_keywords valid_arches : Finset String)
    (m : String) :
    dropped_keywords old_keywords new_keywords = old_keywords \ new_keywords ∧
    (m ∈ dropped_stable_keywords old_keywords new_keywords valid_arches ↔
      m ∈ old_keywords \ new_keywords ∧ m ∈ valid_arches) ∧
    (m ∈ dropped_unstable_keywords old_keywords new_keywords valid_arches ↔
      m ∈ old_keywords \ new_keywords ∧ m.data.head? = some '~' ∧ pyTail m ∈ valid_arches) ∧
    (m ∈ old_keywords \ new_keywords → m ∉ valid_arches →
      ¬(m.data.head? = some '~' ∧ pyTail m ∈ valid_arches) →
      m ∉ dropped_stable_keywords old_keywords new_keywords valid_arches ∧
      m ∉ dropped_unstable_keywords old_keywords new_keywords valid_arches) := by
  refine ⟨rfl, mem_dropped_stable _ _ _ m, mem_dropped_unstable _ _ _ m, ?_⟩
  intro _ hv hu
  constructor
  · intro hmem
    exact hv ((mem_dropped_stable _ _ _ m).mp hmem).2
  · intro hmem
    exact hu ((mem_dropped_unstable _ _ _ m).mp hmem).2

/-- Witness for C6: the masked marker `"-foo"` of
`old = {"amd64", "~x86", "-foo"}`, `new = {"~x86"}`,
`valid = {"amd64", "x86"}` is classified into neither set. -/
theorem C6_keyword_diff_exact_witness :
    dropped_keywords {"amd64", "~x86", "-foo"} {"~x86"} =
      ({"amd64", "~x86", "-foo"} : Finset String) \ {"~x86"} ∧
    ("-foo" ∈ dropped_stable_keywords {"amd64", "~x86", "-foo"} {"~x86"} {"amd64", "x86"} ↔
      "-foo" ∈ ({"amd64", "~x86", "-foo"} : Finset String) \ {"~x86"} ∧
        "-foo" ∈ ({"amd64", "x86"} : Finset String)) ∧
    ("-foo" ∈ dropped_unstable_keywords {"amd64", "~x86", "-foo"} {"~x86"} {"amd64", "x86"} ↔
      "-foo" ∈ ({"amd64", "~x86", "-foo"} : Finset String) \ {"~x86"} ∧
        ("-foo" : String).data.head? = some '~' ∧
        pyTail "-foo" ∈ ({"amd64", "x86"} : Finset String)) ∧
    ("-foo" ∈ ({"amd64", "~x86", "-foo"} : Finset String) \ {"~x86"} →
      "-foo" ∉ ({"amd64", "x86"} : Finset String) →
      ¬(("-foo" : String).data.head? = some '~' ∧
        pyTail "-foo" ∈ ({"amd64", "x86"} : Finset String)) →
      "-foo" ∉ dropped_stable_keywords {"amd64", "~x86", "-foo"} {"~x86"} {"amd64", "x86"} ∧
      "-foo" ∉ dropped_unstable_keywords {"amd64", "~x86", "-foo"} {"~x86"} {"amd64", "x86"}) :=
  C6_keyword_diff_exact {"amd64", "~x86", "-foo"} {"~x86"} {"amd64", "x86"} "-foo"

/-- Claim C1, counterexample: the claim quantifies over every
valid-platform set, but when the valid-platform set itself contains a
tilde-prefixed entry alongside its unprefixed form, a dropped marker can be
classified into both result sets: with `old = {"~a"}`, `new = ∅`,
`valid = {"a", "~a"}` the marker `"~a"` is in `dropped ∩ valid` (exact
match) and also starts with `'~'` with tail `"a" ∈ valid`, so the two sets
both equal `{"~a"}` and are not disjoint. -/
theorem C1_counterexample :
    ¬ Disjoint (dropped_stable_keywords {"~a"} ∅ {"a", "~a"})
      (dropped_unstable_keywords {"~a"} ∅ {"a", "~a"}) := by decide

/-- Claim C1 (amended): for every old, new and valid set, provided no
valid-platform identifier begins with `'~'` (true of any real
`known_arches` registry), the stable-dropped and unstable-dropped sets are
disjoint; and for all inputs whatsoever — no proviso — their union is a
subset of `old − new`. -/
theorem C1_keyword_diff_disjoint_subset (old_keywords new_keywords valid_arches : Finset String) :
    ((∀ v ∈ valid_arches, v.data.head? ≠ some '~') →
      Disjoint (dropped_stable_keywords old_keywords new_keywords valid_arches)
        (dropped_unstable_keywords old_keywords new_keywords valid_arches)) ∧
    dropped_stable_keywords old_keywords new_keywords valid_arches ∪
      dropped_unstable_keywords old_keywords new_keywords valid_arches ⊆
      old_keywords \ new_keywords := by
  constructor
  · intro h
    rw [Finset.disjoint_left]
    intro m hs hu
    exact h m ((mem_dropped_stable _ _ _ m).mp hs).2
      ((mem_dropped_unstable _ _ _ m).mp hu).2.1
  · intro m hm
    rcases Finset.mem_union.mp hm with hs | hu
    · exact ((mem_dropped_stable _ _ _ m).mp hs).1
    · exact ((mem_dropped_unstable _ _ _ m).mp hu).1

/-- Witness for C1 (amended) at `old = {"amd64", "~x86"}`,
`new = {"~x86"}`, `valid = {"amd64", "x86"}`: the proviso holds there, so
both the disjointness and the subset conclusion are obtained. -/
theorem C1_keyword_diff_disjoint_subset_witness :
    (∀ v ∈ ({"amd64", "x86"} : Finset String), v.data.head? ≠ some '~') ∧
    Disjoint (dropped_stable_keywords {"amd64", "~x86"} {"~x86"} {"amd64", "x86"})
      (dropped_unstable_keywords {"amd64", "~x86"} {"~x86"} {"amd64", "x86"}) ∧
    dropped_stable_keywords {"amd64", "~x86"} {"~x86"} {"amd64", "x86"} ∪
      dropped_unstable_keywords {"amd64", "~x86"} {"~x86"} {"amd64", "x86"} ⊆
      ({"amd64", "~x86"} : Finset String) \ {"~x86"} :=
  ⟨by decide,
   (C1_keyword_diff_disjoint_subset {"amd64", "~x86"} {"~x86"} {"amd64", "x86"}).1 (by decide),
   (C1_keyword_diff_disjoint_subset {"amd64", "~x86"} {"~x86"} {"amd64", "x86"}).2⟩

/-- Recognizer for `OutdatedCopyright` findings. -/
def isOutdatedCopyright : Finding → Bool
  | Finding.OutdatedCopyright _ _ _ _ _ => true
  | _ => false

/-- Recognizer for `DirectStableKeywords` findings. -/
def isDirectStable : Finding → Bool
  | Finding.DirectStableKeywords _ _ _ _ => true
  | _ => false

/-- With a successful versioned lookup and a nonempty ebuild text, one loop
iteration of `feed` yields the copyright findings followed by the
direct-addition findings. -/
theorem feed_record_some (ctx : CheckCtx) (g : GitPkg) (pkg : Pkg) (L : List Pkg)
    (line : String) (rest : List String)
    (h1 : ctx.repoMatchVersioned g.category g.package g.version = pkg :: L)
    (h2 : pkg.ebuildLines = line :: rest) :
    feed_record ctx g =
      some (copyright_findings ctx.todayYear pkg line ++ direct_findings ctx g pkg) := by
  simp [feed_record, h1, h2]

/-- The copyright check only ever emits `OutdatedCopyright` findings. -/
theorem copyright_filter_self (t : Nat) (pkg : Pkg) (line : String) :
    (copyright_findings t pkg line).filter isOutdatedCopyright = copyright_findings t pkg line := by
  unfold copyright_findings
  cases copyrightGroup1 line with
  | none => rfl
  | some gr =>
    by_cases h : pyInt (lastYear gr) < t <;> simp [h, isOutdatedCopyright, List.filter]

/-- The direct-addition checks never emit an `OutdatedCopyright` finding. -/
theorem direct_no_outdated (ctx : CheckCtx) (g : GitPkg) (pkg : Pkg) :
    (direct_findings ctx g pkg).filter isOutdatedCopyright = [] := by
  unfold direct_findings
  split
  · split <;> split <;> simp [isOutdatedCopyright, List.filter]
  · rfl

/-- The copyright check never emits a `DirectStableKeywords` finding. -/
theorem copyright_no_direct_stable (t : Nat) (pkg : Pkg) (line : String) :
    (copyright_findings t pkg line).filter isDirectStable = [] := by
  unfold copyright_findings
  cases copyrightGroup1 line with
  | none => rfl
  | some gr =>
    by_cases h : pyInt (lastYear gr) < t <;> simp [h, isDirectStable, List.filter]

/-- A `return` inside the `for git_pkg in pkgset` loop discards the record
it fires on and every later record of the batch. -/
theorem feed_loop_append_of_none (ctx : CheckCtx) (g : GitPkg) (pre post : List GitPkg)
    (h : feed_record ctx g = none) :
    feed_loop ctx (pre ++ g :: post) = feed_loop ctx pre := by
  induction pre with
  | nil => simp [feed_loop, h]
  | cons p pre ih =>
    simp only [List.cons_append, feed_loop]
    cases feed_record ctx p with
    | none => rfl
    | some fs =>
      dsimp only
      rw [List.append_eq, ih]

/-- When some record makes the loop `return`, `feed` delivers exactly the
removal findings followed by the findings of the records before it (or
propagates the removal exception). -/
theorem feed_eq_of_record_none (ctx : CheckCtx) (pre post : List GitPkg) (g : GitPkg)
    (archive : GitPkg → ArchiveResult) (h : feed_record ctx g = none) :
    feed ctx (pre ++ g :: post) archive =
      Except.map (fun wf => (wf.1, wf.2 ++ feed_loop ctx pre))
        (removal_checks ctx (pre ++ g :: post) archive) := by
  unfold feed
  cases removal_checks ctx (pre ++ g :: post) archive with
  | error e => rfl
  | ok wf =>
    cases wf with
    | mk w fs => simp [Except.map, feed_loop_append_of_none ctx g pre post h]

/-- Claim C2, counterexample: record `c2rec1` (status Added, stable keyword
`"amd64"`, empty ebuild text) would yield a `DirectStableKeywords` finding
from its direct-addition check, and record `c2rec2` alone would yield an
`OutdatedCopyright` finding — yet `feed` on the batch `[c2rec1, c2rec2]`
emits nothing at all, because the empty ebuild text makes `feed` `return`,
aborting the direct-addition checks and all later records, not just the
copyright check. -/
def c2rec1 : GitPkg := ⟨"dev-foo", "bar", "1", "c1hash", "A"⟩

/-- Second record of the C2 batch: a modification whose resolved ebuild has
a stale copyright line. -/
def c2rec2 : GitPkg := ⟨"dev-foo", "bar", "2", "c2hash", "M"⟩

/-- Resolved package for `c2rec1`: stable keyword, a maintainer, and an
ebuild whose text yields no first line. -/
def c2pkg1 : Pkg := ⟨"dev-foo", "bar", "1", ["amd64"], ["someone"], []⟩

/-- Resolved package for `c2rec2`: stale copyright header. -/
def c2pkg2 : Pkg := ⟨"dev-foo", "bar", "2", [], ["someone"], ["# Copyright 2019 Foo\n"]⟩

/-- Check environment for the C2 batch: the year is 2024 and the live
repository resolves version 1 to `c2pkg1` and version 2 to `c2pkg2`. -/
def c2ctx : CheckCtx :=
  ⟨2024, {"amd64"},
   fun _ _ v => if v == "1" then [c2pkg1] else [c2pkg2],
   fun _ _ => [],
   fun _ _ => []⟩

/-- An archive oracle for batches without deletions (never consulted). -/
def noArchive : GitPkg → ArchiveResult := fun _ => ⟨0, some [], ""⟩

/-- Claim C2, counterexample (see `c2rec1`): the batch yields no findings
even though both the first record's direct-addition check and the second
record's copyright check would fire. -/
theorem C2_counterexample :
    feed c2ctx [c2rec1, c2rec2] noArchive = Except.ok ([], []) ∧
    direct_findings c2ctx c2rec1 c2pkg1 =
      [Finding.DirectStableKeywords "dev-foo" "bar" "1" ["amd64"]] ∧
    feed_record c2ctx c2rec2 =
      some [Finding.OutdatedCopyright "dev-foo" "bar" "2" "2019" "# Copyright 2019 Foo"] :=
  ⟨rfl, rfl, rfl⟩

/-- Claim C2 (amended): when a record's package definition text is empty,
`feed` stops at that record: its own remaining checks and all subsequent
records of the batch are skipped, while removal findings and the findings
of earlier records are delivered unchanged. -/
theorem C2_empty_ebuild_aborts_batch (ctx : CheckCtx) (pre post : List GitPkg) (g : GitPkg)
    (pkg : Pkg) (L : List Pkg) (archive : GitPkg → ArchiveResult)
    (h1 : ctx.repoMatchVersioned g.category g.package g.version = pkg :: L)
    (h2 : pkg.ebuildLines = []) :
    feed_record ctx g = none ∧
    feed ctx (pre ++ g :: post) archive =
      Except.map (fun wf => (wf.1, wf.2 ++ feed_loop ctx pre))
        (removal_checks ctx (pre ++ g :: post) archive) := by
  have hn : feed_record ctx g = none := by simp [feed_record, h1, h2]
  exact ⟨hn, feed_eq_of_record_none ctx pre post g archive hn⟩

/-- Witness for C2 (amended) on the concrete batch `[c2rec1, c2rec2]`. -/
theorem C2_empty_ebuild_aborts_batch_witness :
    feed_record c2ctx c2rec1 = none ∧
    feed c2ctx [c2rec1, c2rec2] noArchive =
      Except.map (fun wf => (wf.1, wf.2 ++ feed_loop c2ctx []))
        (removal_checks c2ctx [c2rec1, c2rec2] noArchive) :=
  C2_empty_ebuild_aborts_batch c2ctx [] [c2rec2] c2rec1 c2pkg1 [] noArchive rfl rfl

/-- First record of the C9 batch: a modification that resolves and yields a
copyright finding. -/
def c9rec0 : GitPkg := ⟨"dev-foo", "bar", "1", "h0", "M"⟩

/-- Second record of the C9 batch: its versioned lookup fails. -/
def c9rec1 : GitPkg := ⟨"dev-foo", "bar", "2", "h1", "A"⟩

/-- Third record of the C9 batch: would resolve and yield a finding, but is
never reached. -/
def c9rec2 : GitPkg := ⟨"dev-foo", "bar", "3", "h2", "M"⟩

/-- Resolved package for `c9rec0`. -/
def c9pkg0 : Pkg := ⟨"dev-foo", "bar", "1", [], ["someone"], ["# Copyright 2019 Foo\n"]⟩

/-- Resolved package for `c9rec2`. -/
def c9pkg2 : Pkg := ⟨"dev-foo", "bar", "3", [], ["someone"], ["# Copyright 2018 Foo\n"]⟩

/-- Check environment for the C9 batch: version 2 no longer exists in the
live repository. -/
def c9ctx : CheckCtx :=
  ⟨2024, {"amd64"},
   fun _ _ v => if v == "1" then [c9pkg0] else if v == "2" then [] else [c9pkg2],
   fun _ _ => [],
   fun _ _ => []⟩

/-- Claim C9 (confirmed): when the exact versioned lookup of some record
returns no match, `feed` stops processing the remainder of the batch — it
delivers exactly the removal findings followed by the findings of the
records before the failing one (or propagates the removal exception), so no
finding is emitted for the failing record or any later record. -/
theorem C9_lookup_failure_truncates (ctx : CheckCtx) (pre post : List GitPkg) (g : GitPkg)
    (archive : GitPkg → ArchiveResult)
    (h : ctx.repoMatchVersioned g.category g.package g.version = []) :
    feed_record ctx g = none ∧
    feed ctx (pre ++ g :: post) archive =
      Except.map (fun wf => (wf.1, wf.2 ++ feed_loop ctx pre))
        (removal_checks ctx (pre ++ g :: post) archive) := by
  have hn : feed_record ctx g = none := by simp [feed_record, h]
  exact ⟨hn, feed_eq_of_record_none ctx pre post g archive hn⟩

/-- Witness for C9 on the concrete batch `[c9rec0, c9rec1, c9rec2]`. -/
theorem C9_lookup_failure_truncates_witness :
    feed_record c9ctx c9rec1 = none ∧
    feed c9ctx [c9rec0, c9rec1, c9rec2] noArchive =
      Except.map (fun wf => (wf.1, wf.2 ++ feed_loop c9ctx [c9rec0]))
        (removal_checks c9ctx [c9rec0, c9rec1, c9rec2] noArchive) :=
  C9_lookup_failure_truncates c9ctx [c9rec0] [c9rec2] c9rec1 noArchive rfl

/-- The only record of the C4 batch: a deletion. -/
def c4del : GitPkg := ⟨"dev-foo", "bar", "1", "deadbeef9900", "D"⟩

/-- The live package the C4 deletion record still resolves to, carrying a
stale copyright header. -/
def c4pkg : Pkg := ⟨"dev-foo", "bar", "1", [], ["someone"], ["# Copyright 2019 Foo\n"]⟩

/-- Check environment for the C4 batch. -/
def c4ctx : CheckCtx :=
  ⟨2024, {"amd64"}, fun _ _ _ => [c4pkg], fun _ _ => [], fun _ _ => []⟩

/-- Archive oracle for the C4 batch: the snapshot extraction succeeds and
the old snapshot has no keywords, so the removal branch emits nothing. -/
def c4archive : GitPkg → ArchiveResult := fun _ => ⟨0, some [], ""⟩

/-- Claim C4, counterexample: a batch whose only record has status Deleted
still produces an `OutdatedCopyright` finding, and that finding does not
come from `removal_checks` — the `for git_pkg in pkgset` loop iterates the
Deleted record too, looks it up against the live repository and feeds it to
the copyright classifier, contradicting "a record with status Deleted is
never itself looked up and fed to those classifiers". -/
theorem C4_counterexample :
    c4del.status = "D" ∧
    feed c4ctx [c4del] c4archive =
      Except.ok ([], [Finding.OutdatedCopyright "dev-foo" "bar" "1" "2019"
        "# Copyright 2019 Foo"]) ∧
    removal_checks c4ctx [c4del] c4archive = Except.ok ([], []) :=
  ⟨rfl, rfl, rfl⟩

/-- The direct-addition checks emit nothing for a record whose status is
not `"A"`. -/
theorem direct_findings_not_added (ctx : CheckCtx) (g : GitPkg) (pkg : Pkg)
    (hs : g.status ≠ "A") :
    direct_findings ctx g pkg = [] := by
  have hb : (g.status == "A") = false := beq_eq_false_iff_ne.mpr hs
  simp [direct_findings, hb]

/-- Claim C4 (amended): the per-commit branch of `feed` iterates every
record of the batch regardless of status — a Deleted record is looked up
like any other and, when the lookup succeeds, is fed to the copyright
classifier; only the direct-addition checks are restricted to records with
status Added. -/
theorem C4_loop_processes_deleted (ctx : CheckCtx) (g : GitPkg) (pkg : Pkg) (L : List Pkg)
    (line : String) (rest : List String)
    (hs : g.status ≠ "A")
    (h1 : ctx.repoMatchVersioned g.category g.package g.version = pkg :: L)
    (h2 : pkg.ebuildLines = line :: rest) :
    feed_record ctx g = some (copyright_findings ctx.todayYear pkg line) ∧
    direct_findings ctx g pkg = [] := by
  have hd := direct_findings_not_added ctx g pkg hs
  rw [feed_record_some ctx g pkg L line rest h1 h2, hd, List.append_nil]
  exact ⟨rfl, rfl⟩

/-- Witness for C4 (amended) on the concrete Deleted record `c4del`. -/
theorem C4_loop_processes_deleted_witness :
    feed_record c4ctx c4del = some (copyright_findings 2024 c4pkg "# Copyright 2019 Foo\n") ∧
    direct_findings c4ctx c4del c4pkg = [] :=
  C4_loop_processes_deleted c4ctx c4del c4pkg [] "# Copyright 2019 Foo\n" []
    (by decide) rfl rfl

/-- The only record of the C3 batch: a deletion whose parent commit cannot
be archived. -/
def c3del : GitPkg := ⟨"dev-foo", "bar", "1", "0123abcd4567", "D"⟩

/-- Check environment for the C3 batch. -/
def c3ctx : CheckCtx :=
  ⟨2024, ∅, fun _ _ _ => [], fun _ _ => [], fun _ _ => []⟩

/-- Archive oracle for the C3 batch: `git archive` fails — it exits with
code 128, writes its diagnostic to stderr, and writes nothing to stdout, so
the stdout bytes are not a readable tar stream. -/
def c3archiveFail : GitPkg → ArchiveResult :=
  fun _ => ⟨128, none, "fatal: not a valid object name"⟩

/-- Claim C3 is a code bug: when the archive command fails, `tarfile.open`
on the empty stdout stream raises `tarfile.ReadError` at git.py line 128,
before the exit-code check at line 130 that would log the recoverable
warning and return — so instead of emitting no findings and returning
normally, `removal_checks` propagates an exception through `feed` and out
of the check. -/
theorem C3_extraction_failure_raises :
    (c3archiveFail c3del).exitCode ≠ 0 ∧
    removal_checks c3ctx [c3del] c3archiveFail =
      Except.error "tarfile.ReadError: empty file" ∧
    feed c3ctx [c3del] c3archiveFail =
      Except.error "tarfile.ReadError: empty file" :=
  ⟨by decide, rfl, rfl⟩

/-- An `OutdatedCopyright` finding is never among the direct-addition
findings. -/
theorem outdated_not_mem_direct (ctx : CheckCtx) (g : GitPkg) (pkg : Pkg)
    (c p v y l : String) :
    Finding.OutdatedCopyright c p v y l ∉ direct_findings ctx g pkg := by
  intro hmem
  have h := List.filter_eq_nil_iff.mp (direct_no_outdated ctx g pkg) _ hmem
  simp [isOutdatedCopyright] at h

/-- A `DirectNoMaintainer` finding is never among the copyright findings. -/
theorem no_maintainer_not_mem_copyright (t : Nat) (pkg : Pkg) (line : String)
    (c p : String) :
    Finding.DirectNoMaintainer c p ∉ copyright_findings t pkg line := by
  unfold copyright_findings
  cases copyrightGroup1 line with
  | none => simp
  | some gr => by_cases hy : pyInt (lastYear gr) < t <;> simp [hy]

/-- Claim C5 (confirmed): for a record whose resolved ebuild's first line
matches the copyright pattern with group 1 `gr`, the later year of the
range (`lastYear gr`) is taken, and an `OutdatedCopyright` finding carrying
that year and the newline-stripped line is emitted by the record's
iteration of `feed` exactly when that year is strictly less than the
current calendar year; a non-matching first line yields no copyright
finding; and `# Copyright 2020-2024 Foo` evaluated in year 2024 yields no
finding. -/
theorem C5_copyright_check (ctx : CheckCtx) (g : GitPkg) (pkg : Pkg) (L : List Pkg)
    (line : String) (rest : List String) (gr : String)
    (h1 : ctx.repoMatchVersioned g.category g.package g.version = pkg :: L)
    (h2 : pkg.ebuildLines = line :: rest) :
    (copyrightGroup1 line = some gr →
      (Finding.OutdatedCopyright pkg.category pkg.package pkg.version (lastYear gr)
          (stripNL line) ∈ (feed_record ctx g).getD [] ↔
        pyInt (lastYear gr) < ctx.todayYear)) ∧
    (copyrightGroup1 line = none →
      ((feed_record ctx g).getD []).filter isOutdatedCopyright = []) ∧
    lastYear "2020-2024" = "2024" ∧
    copyright_findings 2024 pkg "# Copyright 2020-2024 Foo" = [] := by
  have hfr := feed_record_some ctx g pkg L line rest h1 h2
  refine ⟨?_, ?_, rfl, rfl⟩
  · intro h3
    rw [hfr]
    simp only [Option.getD_some, List.mem_append]
    constructor
    · rintro (hc | hd)
      · unfold copyright_findings at hc
        rw [h3] at hc
        by_cases hy : pyInt (lastYear gr) < ctx.todayYear
        · exact hy
        · simp [hy] at hc
      · exact absurd hd (outdated_not_mem_direct ctx g pkg _ _ _ _ _)
    · intro hy
      left
      unfold copyright_findings
      rw [h3]
      simp [hy]
  · intro h3
    rw [hfr]
    simp only [Option.getD_some, List.filter_append]
    rw [direct_no_outdated, List.append_nil, copyright_filter_self]
    unfold copyright_findings
    rw [h3]

/-- The record used by the C5 witness. -/
def c5rec : GitPkg := ⟨"dev-foo", "bar", "1", "h5", "M"⟩

/-- The resolved package used by the C5 witness: stale 2019 copyright. -/
def c5pkg : Pkg := ⟨"dev-foo", "bar", "1", [], ["someone"], ["# Copyright 2019 Foo\n"]⟩

/-- Check environment for the C5 witness, in year 2024. -/
def c5ctx : CheckCtx :=
  ⟨2024, {"amd64"}, fun _ _ _ => [c5pkg], fun _ _ => [], fun _ _ => []⟩

/-- Witness for C5 on the line `# Copyright 2019 Foo` in year 2024. -/
theorem C5_copyright_check_witness :
    (copyrightGroup1 "# Copyright 2019 Foo\n" = some "2019" →
      (Finding.OutdatedCopyright "dev-foo" "bar" "1" (lastYear "2019")
          (stripNL "# Copyright 2019 Foo\n") ∈ (feed_record c5ctx c5rec).getD [] ↔
        pyInt (lastYear "2019") < 2024)) ∧
    (copyrightGroup1 "# Copyright 2019 Foo\n" = none →
      ((feed_record c5ctx c5rec).getD []).filter isOutdatedCopyright = []) ∧
    lastYear "2020-2024" = "2024" ∧
    copyright_findings 2024 c5pkg "# Copyright 2020-2024 Foo" = [] :=
  C5_copyright_check c5ctx c5rec c5pkg [] "# Copyright 2019 Foo\n" [] "2019" rfl rfl

/-- Claim C7 (confirmed): for a record with status Added, exactly the
markers whose first character is neither `'~'` nor `'-'` are collected
(`isStableKeyword`), and the record's iteration of `feed` emits a
`DirectStableKeywords` finding carrying their sorted list exactly when that
collection is non-empty; a record with any other status yields no
`DirectStableKeywords` finding. -/
theorem C7_direct_stable_keywords (ctx : CheckCtx) (g : GitPkg) (pkg : Pkg) (L : List Pkg)
    (line : String) (rest : List String) (x : String)
    (h1 : ctx.repoMatchVersioned g.category g.package g.version = pkg :: L)
    (h2 : pkg.ebuildLines = line :: rest) :
    (isStableKeyword x = true ↔
      (x.data.head? ≠ some '~' ∧ x.data.head? ≠ some '-')) ∧
    stable_keywords pkg = sortStrings (pkg.keywords.filter isStableKeyword) ∧
    (g.status = "A" →
      ((feed_record ctx g).getD []).filter isDirectStable =
        (if stable_keywords pkg ≠ [] then
          [Finding.DirectStableKeywords pkg.category pkg.package pkg.version
            (stable_keywords pkg)]
         else [])) ∧
    (g.status ≠ "A" → ((feed_record ctx g).getD []).filter isDirectStable = []) := by
  have hfr := feed_record_some ctx g pkg L line rest h1 h2
  refine ⟨?_, rfl, ?_, ?_⟩
  · unfold isStableKeyword
    cases hx : x.data.head? with
    | none => simp
    | some c => simp [not_or]
  · intro hA
    have hb : (g.status == "A") = true := beq_iff_eq.mpr hA
    rw [hfr]
    simp only [Option.getD_some, List.filter_append, copyright_no_direct_stable,
      List.nil_append]
    unfold direct_findings
    rw [hb]
    by_cases hsk : stable_keywords pkg ≠ [] <;>
      by_cases hnm : (newly_added (ctx.addedRepoMatch g.category g.package)
          && pkg.maintainers.isEmpty) = true <;>
      simp [hsk, hnm, isDirectStable, List.filter]
  · intro hs
    rw [hfr]
    simp only [Option.getD_some, List.filter_append, copyright_no_direct_stable,
      List.nil_append]
    rw [direct_findings_not_added ctx g pkg hs]
    rfl

/-- The record used by the C7 witness: a fresh addition. -/
def c7rec : GitPkg := ⟨"dev-foo", "bar", "1", "h7", "A"⟩

/-- The resolved package used by the C7 witness: keywords
`["amd64", "~x86"]`, of which only `"amd64"` is prefix-free. -/
def c7pkg : Pkg :=
  ⟨"dev-foo", "bar", "1", ["amd64", "~x86"], ["someone"], ["# Copyright 2024 Foo\n"]⟩

/-- Check environment for the C7 witness. -/
def c7ctx : CheckCtx :=
  ⟨2024, {"amd64", "x86"}, fun _ _ _ => [c7pkg], fun _ _ => [], fun _ _ => []⟩

/-- Witness for C7 on a version added with markers `{"amd64", "~x86"}`. -/
theorem C7_direct_stable_keywords_witness :
    (isStableKeyword "~x86" = true ↔
      (("~x86" : String).data.head? ≠ some '~' ∧
        ("~x86" : String).data.head? ≠ some '-')) ∧
    stable_keywords c7pkg = sortStrings (c7pkg.keywords.filter isStableKeyword) ∧
    (c7rec.status = "A" →
      ((feed_record c7ctx c7rec).getD []).filter isDirectStable =
        (if stable_keywords c7pkg ≠ [] then
          [Finding.DirectStableKeywords "dev-foo" "bar" "1" (stable_keywords c7pkg)]
         else [])) ∧
    (c7rec.status ≠ "A" → ((feed_record c7ctx c7rec).getD []).filter isDirectStable = []) :=
  C7_direct_stable_keywords c7ctx c7rec c7pkg [] "# Copyright 2024 Foo\n" [] "~x86" rfl rfl

/-- `all(x.date == added_pkgs[0].date for x in added_pkgs)` holds exactly
when all recorded dates are pairwise identical (equivalently, identical to
the earliest one). -/
theorem newly_added_iff_pairwise (l : List AddedPkg) :
    newly_added l = true ↔ ∀ x ∈ l, ∀ y ∈ l, x.date = y.date := by
  cases l with
  | nil => simp [newly_added]
  | cons a t =>
    simp only [newly_added, List.all_eq_true, beq_iff_eq]
    constructor
    · intro h x hx y hy
      rw [h x hx, h y hy]
    · intro h x hx
      exact h x hx a (List.mem_cons_self a t)

/-- Membership of the no-maintainer finding among the direct-addition
findings of an Added record, characterized. -/
theorem mem_dnm_direct (ctx : CheckCtx) (g : GitPkg) (pkg : Pkg) (hA : g.status = "A") :
    Finding.DirectNoMaintainer pkg.category pkg.package ∈ direct_findings ctx g pkg ↔
      (newly_added (ctx.addedRepoMatch g.category g.package) = true ∧
        pkg.maintainers = []) := by
  have hb : (g.status == "A") = true := beq_iff_eq.mpr hA
  unfold direct_findings
  rw [hb]
  by_cases hsk : stable_keywords pkg ≠ [] <;>
    by_cases hnm : (newly_added (ctx.addedRepoMatch g.category g.package)
        && pkg.maintainers.isEmpty) = true <;>
    simp only [Bool.and_eq_true, List.isEmpty_iff] at hnm <;>
    simp [hsk, hnm, List.mem_append, List.isEmpty_iff]

/-- Claim C8 (confirmed): for an Added record whose versioned lookup
succeeds (and whose ebuild has a first line), a `DirectNoMaintainer`
finding is emitted exactly when every added-package-index record for the
package carries a timestamp identical to every other (hence to the
earliest one) and the resolved package declares no maintainers. -/
theorem C8_direct_no_maintainer (ctx : CheckCtx) (g : GitPkg) (pkg : Pkg) (L : List Pkg)
    (line : String) (rest : List String)
    (h1 : ctx.repoMatchVersioned g.category g.package g.version = pkg :: L)
    (h2 : pkg.ebuildLines = line :: rest)
    (hA : g.status = "A") :
    Finding.DirectNoMaintainer pkg.category pkg.package ∈ (feed_record ctx g).getD [] ↔
      ((∀ x ∈ ctx.addedRepoMatch g.category g.package,
          ∀ y ∈ ctx.addedRepoMatch g.category g.package, x.date = y.date) ∧
        pkg.maintainers = []) := by
  rw [feed_record_some ctx g pkg L line rest h1 h2]
  simp only [Option.getD_some, List.mem_append]
  rw [← newly_added_iff_pairwise]
  constructor
  · rintro (hc | hd)
    · exact absurd hc (no_maintainer_not_mem_copyright _ _ _ _ _)
    · exact (mem_dnm_direct ctx g pkg hA).mp hd
  · intro h
    exact Or.inr ((mem_dnm_direct ctx g pkg hA).mpr h)

/-- The record used by the C8 witness: a fresh addition. -/
def c8rec : GitPkg := ⟨"dev-foo", "bar", "1", "h8", "A"⟩

/-- The resolved package used by the C8 witness: no maintainers, no stable
keywords. -/
def c8pkg : Pkg := ⟨"dev-foo", "bar", "1", ["~amd64"], [], ["# Copyright 2024 Foo\n"]⟩

/-- Check environment for the C8 witness: the added-package index holds two
records sharing the same date. -/
def c8ctx : CheckCtx :=
  ⟨2024, {"amd64"}, fun _ _ _ => [c8pkg], fun _ _ => [],
   fun _ _ => [⟨"Mon Jan 1 12:00:00 2024"⟩, ⟨"Mon Jan 1 12:00:00 2024"⟩]⟩

/-- Witness for C8: two same-date index records and no maintainers. -/
theorem C8_direct_no_maintainer_witness :
    Finding.DirectNoMaintainer "dev-foo" "bar" ∈ (feed_record c8ctx c8rec).getD [] ↔
      ((∀ x ∈ c8ctx.addedRepoMatch "dev-foo" "bar",
          ∀ y ∈ c8ctx.addedRepoMatch "dev-foo" "bar", x.date = y.date) ∧
        c8pkg.maintainers = []) :=
  C8_direct_no_maintainer c8ctx c8rec c8pkg [] "# Copyright 2024 Foo\n" [] rfl rfl rfl

/-- Claim C10 (confirmed): for an Added record whose lookup succeeds, when
the added-package index returns an empty sequence, `feed` does not fail:
the lazily evaluated `all(...)` is vacuously true (the `added_pkgs[0]`
subscript is never evaluated, see `newly_added`), the package counts as
newly added, and a `DirectNoMaintainer` finding is emitted exactly when the
package declares no maintainers. -/
theorem C10_empty_added_index (ctx : CheckCtx) (g : GitPkg) (pkg : Pkg) (L : List Pkg)
    (line : String) (rest : List String)
    (h1 : ctx.repoMatchVersioned g.category g.package g.version = pkg :: L)
    (h2 : pkg.ebuildLines = line :: rest)
    (hA : g.status = "A")
    (hE : ctx.addedRepoMatch g.category g.package = []) :
    newly_added (ctx.addedRepoMatch g.category g.package) = true ∧
    (Finding.DirectNoMaintainer pkg.category pkg.package ∈ (feed_record ctx g).getD [] ↔
      pkg.maintainers = []) := by
  have hn : newly_added (ctx.addedRepoMatch g.category g.package) = true := by
    rw [hE]
    rfl
  refine ⟨hn, ?_⟩
  rw [feed_record_some ctx g pkg L line rest h1 h2]
  simp only [Option.getD_some, List.mem_append]
  constructor
  · rintro (hc | hd)
    · exact absurd hc (no_maintainer_not_mem_copyright _ _ _ _ _)
    · exact ((mem_dnm_direct ctx g pkg hA).mp hd).2
  · intro h
    exact Or.inr ((mem_dnm_direct ctx g pkg hA).mpr ⟨hn, h⟩)

/-- The record used by the C10 witness: a fresh addition. -/
def c10rec : GitPkg := ⟨"dev-foo", "bar", "1", "h10", "A"⟩

/-- The resolved package used by the C10 witness: no maintainers. -/
def c10pkg : Pkg := ⟨"dev-foo", "bar", "1", ["~amd64"], [], ["# Copyright 2024 Foo\n"]⟩

/-- Check environment for the C10 witness: the added-package index is
empty for every package. -/
def c10ctx : CheckCtx :=
  ⟨2024, {"amd64"}, fun _ _ _ => [c10pkg], fun _ _ => [], fun _ _ => []⟩

/-- Witness for C10 on an empty added-package index. -/
theorem C10_empty_added_index_witness :
    newly_added (c10ctx.addedRepoMatch "dev-foo" "bar") = true ∧
    (Finding.DirectNoMaintainer "dev-foo" "bar" ∈ (feed_record c10ctx c10rec).getD [] ↔
      c10pkg.maintainers = []) :=
  C10_empty_added_index c10ctx c10rec c10pkg [] "# Copyright 2024 Foo\n" [] rfl rfl rfl rfl

end Pkgcheck
